import Mathlib

/-!
Shallow embedding of the contact-book program `src/Home_work_DS_2.py`
(field validators `Phone` and `Birthday`, `Record` phone operations,
`AddressBook` with its upcoming-birthdays query, and the `add_contact`
command handler with its `input_error` wrapper), together with theorems
settling the specification's claims about it.

Conventions of the embedding:
* Python `datetime.date` values are a `Date` structure (year, month, day);
  chronological order, date subtraction and `weekday()` go through
  `Date.toOrdinal`, the proleptic-Gregorian day count with
  `0001-01-01 ↦ 1`, exactly CPython's `date.toordinal`.
  `date.weekday()` (Monday = 0 … Sunday = 6) is `pyWeekday` of the ordinal;
  `date + timedelta(days=k)` is ordinal addition, so the helpers
  `find_next_weekday` and `adjust_for_weekend`, which only add day deltas
  and inspect weekdays, are embedded at the ordinal level.
* Fallible constructors raise `ValueError(msg)`; they are embedded as
  `Except String` with the source's message.
* In-place mutation is embedded by explicit state passing: an operation
  that can both mutate and raise returns the final state together with
  `Option String` (`some msg` when the Python call raises `ValueError(msg)`),
  so the state reached before the raise is preserved, as in the source.
* Python's `str.isdigit` is modelled on the ASCII fragment
  (`Char.isDigit`, i.e. `'0'..'9'`), matching the specification's reading.
-/

/-- A calendar date, as stored by Python's `datetime.date`: year, month, day
(no time component). -/
structure Date where
  year : Nat
  month : Nat
  day : Nat
deriving DecidableEq, Repr

/-- Gregorian leap-year rule, as used by `datetime` (`calendar.isleap`). -/
def isLeap (y : Nat) : Bool :=
  (y % 4 == 0 && y % 100 != 0) || y % 400 == 0

/-- Number of days in month `m` of year `y` (`datetime`'s `_days_in_month`). -/
def daysInMonth (y m : Nat) : Nat :=
  if m == 2 then (if isLeap y then 29 else 28)
  else if m == 4 || m == 6 || m == 9 || m == 11 then 30
  else 31

/-- The dates `datetime.date` can represent: `MINYEAR = 1 ≤ year ≤ MAXYEAR = 9999`,
`1 ≤ month ≤ 12`, `1 ≤ day ≤ daysInMonth`. -/
def Date.isValid (d : Date) : Bool :=
  decide (1 ≤ d.year ∧ d.year ≤ 9999 ∧ 1 ≤ d.month ∧ d.month ≤ 12 ∧
          1 ≤ d.day ∧ d.day ≤ daysInMonth d.year d.month)

/-- Days in all years before year `y` (year 1 has none). -/
def daysBeforeYear (y : Nat) : Nat :=
  365 * (y - 1) + (y - 1) / 4 - (y - 1) / 100 + (y - 1) / 400

/-- Days in year `y` before month `m`. -/
def daysBeforeMonth (y m : Nat) : Nat :=
  ((List.range (m - 1)).map (fun i => daysInMonth y (i + 1))).sum

/-- CPython's `date.toordinal`: day number in the proleptic Gregorian
calendar, with `0001-01-01 ↦ 1`. -/
def Date.toOrdinal (d : Date) : Nat :=
  daysBeforeYear d.year + daysBeforeMonth d.year d.month + d.day

/-- Weekday (`date.weekday()`) of the date with the given ordinal:
Monday = 0 … Sunday = 6 (`0001-01-01` was a Monday). -/
def pyWeekday (ord : Nat) : Nat := (ord + 6) % 7

/-- Python's `str.isdigit()`, restricted to ASCII: non-empty and every
character a decimal digit. -/
def pyIsdigit (s : String) : Bool :=
  s.length != 0 && s.data.all Char.isDigit

/-- Embeds `Phone.__init__`: `if not phone.isdigit() or len(phone) != 10: raise
ValueError("Phone number must be 10 digits long!")`; otherwise the phone
string itself is stored as the field's `value`. -/
def Phone_init (phone : String) : Except String String :=
  if !(pyIsdigit phone) || phone.length != 10 then
    .error "Phone number must be 10 digits long!"
  else .ok phone

/-- Numeric value of an ASCII digit character. -/
def digitVal (c : Char) : Nat := c.toNat - '0'.toNat

/-- Embeds `datetime.strptime(s, "%d.%m.%Y").date()` for strings of length 10 (the
only ones `Birthday.__init__` feeds it): exactly the shape `DD.MM.YYYY` with
all-digit components, and the components must form a representable date
(`strptime`'s `%d`/`%m` character classes reject exactly the two-digit values
also rejected by date validation, and `%Y` is four digits). `none` stands for
the `ValueError` raised on a mismatch or an impossible date. -/
def strptime_dmY (s : String) : Option Date :=
  match s.data with
  | [d1, d2, p1, m1, m2, p2, y1, y2, y3, y4] =>
    if p1 == '.' && p2 == '.' && d1.isDigit && d2.isDigit && m1.isDigit &&
       m2.isDigit && y1.isDigit && y2.isDigit && y3.isDigit && y4.isDigit then
      let dt : Date :=
        ⟨1000 * digitVal y1 + 100 * digitVal y2 + 10 * digitVal y3 + digitVal y4,
         10 * digitVal m1 + digitVal m2,
         10 * digitVal d1 + digitVal d2⟩
      if dt.isValid then some dt else none
    else none
  | _ => none

/-- Embeds `Birthday.__init__`: length must be exactly 10 and the string must parse
under `"%d.%m.%Y"`; any `ValueError` inside the `try` is re-raised as
`ValueError("Invalid date format. Use DD.MM.YYYY")`. On success the parsed
date is stored as the field's `value`. -/
def Birthday_init (s : String) : Except String Date :=
  if s.length != 10 then .error "Invalid date format. Use DD.MM.YYYY"
  else
    match strptime_dmY s with
    | some d => .ok d
    | none => .error "Invalid date format. Use DD.MM.YYYY"

/-- One contact (`Record`): a name (`Name` validates nothing, so the plain
string), an ordered list of phone values, an optional birthday date. -/
structure Record where
  name : String
  phones : List String
  birthday : Option Date
deriving DecidableEq, Repr

/-- Embeds `Record.find_phone`: first stored phone whose value equals `phone`,
else `None`. -/
def Record.find_phone (r : Record) (phone : String) : Option String :=
  r.phones.find? (· == phone)

/-- Embeds `Record.remove_phone`: if `find_phone` finds an entry, remove that (first
matching) entry from the list; otherwise do nothing. -/
def Record.remove_phone (r : Record) (phone : String) : Record :=
  match r.find_phone phone with
  | some p => { r with phones := r.phones.erase p }
  | none => r

/-- Embeds `Record.add_phone`: validate via `Phone.__init__` (propagating its
`ValueError`) and append. -/
def Record.add_phone (r : Record) (phone : String) : Except String Record :=
  match Phone_init phone with
  | .ok p => .ok { r with phones := r.phones ++ [p] }
  | .error e => .error e

/-- Embeds `Record.edit_phone`: if `old_phone` is found, first `remove_phone` it and
then `add_phone new_phone`; otherwise raise
`ValueError("Phone number is incorrect")`. The call mutates in place, so the
result is the record state reached when the call returns or raises, paired
with `some msg` exactly when it raises `ValueError(msg)` — on an invalid
`new_phone` the old phone is already gone from the returned state. -/
def Record.edit_phone (r : Record) (old_phone new_phone : String) :
    Record × Option String :=
  match r.find_phone old_phone with
  | some _ =>
    let r' := r.remove_phone old_phone
    match r'.add_phone new_phone with
    | .ok r'' => (r'', none)
    | .error e => (r', some e)
  | none => (r, some "Phone number is incorrect")

/-- An `AddressBook` wraps a `dict` mapping name strings to records: an
insertion-ordered association list with unique keys. -/
abbrev AddressBook := List (String × Record)

/-- Embeds `AddressBook.add_record`: `self.data[record.name.value] = record` — if the
key is present its value is replaced in place, otherwise the pair is appended
(Python dict assignment keeps the original insertion position). -/
def AddressBook.add_record (book : AddressBook) (record : Record) : AddressBook :=
  if book.any (·.1 == record.name) then
    book.map (fun kv => if kv.1 == record.name then (kv.1, record) else kv)
  else book ++ [(record.name, record)]

/-- Embeds `AddressBook.find`: `self.data.get(name, None)`. -/
def AddressBook.find (book : AddressBook) (name : String) : Option Record :=
  (book.find? (·.1 == name)).map (·.2)

/-- Embeds `AddressBook.delete`: `if name in self.data: del self.data[name]` — remove
the entry with that key if present (keys are unique, so the first match). -/
def AddressBook.delete (book : AddressBook) (name : String) : AddressBook :=
  book.eraseP (·.1 == name)

/-- Embeds `AddressBook.find_next_weekday` at the ordinal level: `days_ahead =
weekday - start_date.weekday()`, add 7 if `days_ahead <= 0`, and return
`start_date + timedelta(days=days_ahead)`. -/
def find_next_weekday (start_date : Nat) (weekday : Nat) : Nat :=
  let days_ahead : Int := (weekday : Int) - (pyWeekday start_date : Int)
  let days_ahead := if days_ahead ≤ 0 then days_ahead + 7 else days_ahead
  start_date + days_ahead.toNat

/-- Embeds `AddressBook.adjust_for_weekend` at the ordinal level: if the date falls
on Saturday or Sunday (`weekday() >= 5`), move to the next Monday via
`find_next_weekday(birthday, 0)`; otherwise keep it. -/
def adjust_for_weekend (birthday : Nat) : Nat :=
  if pyWeekday birthday ≥ 5 then find_next_weekday birthday 0 else birthday

/-- Embeds `date.replace(year=y)`: same month and day with the year replaced,
validated like the `date` constructor; raises `ValueError` when the result is
not a representable date (e.g. Feb 29 of a non-leap year, or a year outside
`1..9999`). -/
def date_replace_year (d : Date) (y : Nat) : Except String Date :=
  if y < 1 || 9999 < y then .error ("year " ++ toString y ++ " is out of range")
  else if (Date.mk y d.month d.day).isValid then .ok ⟨y, d.month, d.day⟩
  else .error "day is out of range for month"

/-- The projection step of `get_upcoming_birthdays` for one birthday:
`birthday_this_year = record.birthday.value.replace(year=today.year)`, then if
`birthday_this_year < today`, `birthday_this_year =
birthday_this_year.replace(year=today.year + 1)`. Either `replace` may
raise. -/
def project (b : Date) (today : Date) : Except String Date :=
  match date_replace_year b today.year with
  | .error e => .error e
  | .ok bty =>
    if bty.toOrdinal < today.toOrdinal then
      date_replace_year bty (today.year + 1)
    else .ok bty

/-- Embeds `AddressBook.get_upcoming_birthdays(days)`: iterate the records in
insertion order; for each record with a birthday, project it onto the current
year via `project` (an unguarded `ValueError` there aborts the whole call);
if `0 <= (birthday_this_year - today).days <= days`, append
`adjust_for_weekend(birthday_this_year)` to the result. `today`
(`datetime.now().date()`) is an explicit argument; collected dates are
returned as ordinals. -/
def get_upcoming_birthdays : AddressBook → Date → Int → Except String (List Nat)
  | [], _, _ => .ok []
  | kv :: rest, today, days =>
    match kv.2.birthday with
    | none => get_upcoming_birthdays rest today days
    | some b =>
      match project b today with
      | .error e => .error e
      | .ok p =>
        match get_upcoming_birthdays rest today days with
        | .error e => .error e
        | .ok l =>
          if 0 ≤ (p.toOrdinal : Int) - today.toOrdinal ∧
             (p.toOrdinal : Int) - today.toOrdinal ≤ days then
            .ok (adjust_for_weekend p.toOrdinal :: l)
          else .ok l

/-- The exceptions distinguished by the `input_error` decorator. -/
inductive PyErr where
  | valueError (msg : String)
  | indexError
  | keyError
deriving DecidableEq, Repr

/-- The `input_error` decorator's `except` clauses: a `ValueError` becomes its
own message, an `IndexError` becomes `"Give me phone and name please"`, a
`KeyError` becomes `"Enter user name"`; a normal return passes through. -/
def input_error (r : Except PyErr String) : String :=
  match r with
  | .ok s => s
  | .error (.valueError m) => m
  | .error .indexError => "Give me phone and name please"
  | .error .keyError => "Enter user name"

/-- Body of `add_contact` before the `input_error` wrapper. `name, phone, *_ =
args` raises `ValueError("not enough values to unpack (expected at least 2,
got N)")` when `args` has fewer than two elements. Otherwise: look the name
up; if absent, create a fresh record and `add_record` it (this insertion is
not rolled back); then, if `phone` is truthy (non-empty), `record.add_phone
(phone)` — whose `ValueError` escapes after the insertion. Mutation of the
record aliased inside the book is embedded by re-keying the updated record
with `add_record` (same key). Returns the raised-or-returned outcome together
with the book state reached. -/
def add_contact_body (args : List String) (book : AddressBook) :
    Except PyErr String × AddressBook :=
  match args with
  | name :: phone :: _ =>
    match book.find name with
    | some record =>
      if phone ≠ "" then
        match Phone_init phone with
        | .ok p =>
          (.ok "Contact updated.",
           book.add_record { record with phones := record.phones ++ [p] })
        | .error e => (.error (.valueError e), book)
      else (.ok "Contact updated.", book)
    | none =>
      let record : Record := ⟨name, [], none⟩
      let book' := book.add_record record
      if phone ≠ "" then
        match Phone_init phone with
        | .ok p => (.ok "Contact added.", book'.add_record ⟨name, [p], none⟩)
        | .error e => (.error (.valueError e), book')
      else (.ok "Contact added.", book')
  | _ =>
    (.error (.valueError
      ("not enough values to unpack (expected at least 2, got " ++
        toString args.length ++ ")")), book)

/-- The `add` handler as dispatched: `add_contact_body` wrapped by
`input_error`, returning the printed string and the book state. -/
def add_contact (args : List String) (book : AddressBook) :
    String × AddressBook :=
  let (r, book') := add_contact_body args book
  (input_error r, book')

/-- Address-book states reachable from the empty book through the public
mutating operations (`find` and `get_upcoming_birthdays` do not change the
state). -/
inductive Reachable : AddressBook → Prop where
  | empty : Reachable []
  | add (record : Record) {book : AddressBook} :
      Reachable book → Reachable (book.add_record record)
  | del (name : String) {book : AddressBook} :
      Reachable book → Reachable (book.delete name)

/-- The collection invariant: every stored record's name equals its own
key. -/
def keyedByName (book : AddressBook) : Prop :=
  ∀ kv ∈ book, kv.2.name = kv.1

/-! ## Helper lemmas -/

theorem find_first_self {l : List String} {a : String} (h : a ∈ l) :
    l.find? (· == a) = some a := by
  induction l with
  | nil => cases h
  | cons x xs ih =>
    by_cases hx : x = a
    · subst hx; simp [List.find?]
    · have : a ∈ xs := by
        rcases List.mem_cons.mp h with h' | h'
        · exact absurd h'.symm hx
        · exact h'
      simp [List.find?, beq_eq_false_iff_ne.mpr hx, ih this]

theorem find_first_none {l : List String} {a : String} (h : a ∉ l) :
    l.find? (· == a) = none := by
  apply List.find?_eq_none.mpr
  intro x hx
  simp only [beq_iff_eq]
  intro hxa
  exact h (hxa ▸ hx)

theorem add_record_cons_ne (kv : String × Record) (rest : AddressBook)
    (record : Record) (h : ¬(kv.1 = record.name)) :
    AddressBook.add_record (kv :: rest) record = kv :: rest.add_record record := by
  unfold AddressBook.add_record
  have hbeq : (kv.1 == record.name) = false := beq_eq_false_iff_ne.mpr h
  have hf : (if kv.1 == record.name then (kv.1, record) else kv) = kv := by
    simp [hbeq]
  simp only [List.any_cons, hbeq, Bool.false_or, List.map_cons, hf]
  split
  · rfl
  · simp

theorem find_add_record (book : AddressBook) (record : Record) :
    (book.add_record record).find record.name = some record := by
  induction book with
  | nil => simp [AddressBook.add_record, AddressBook.find, List.find?]
  | cons kv rest ih =>
    by_cases hk : kv.1 = record.name
    · have hbeq : (kv.1 == record.name) = true := beq_iff_eq.mpr hk
      unfold AddressBook.add_record AddressBook.find
      have hany : (kv :: rest).any (·.1 == record.name) = true := by
        simp [List.any_cons, hbeq]
      rw [if_pos hany, List.map_cons, if_pos hbeq,
        List.find?_cons_of_pos _ (by simpa using hbeq)]
      rfl
    · rw [add_record_cons_ne kv rest record hk]
      unfold AddressBook.find
      have hbeq : (kv.1 == record.name) = false := beq_eq_false_iff_ne.mpr hk
      simp only [List.find?, hbeq]
      exact ih

theorem gub_cons_none (kv : String × Record) (rest : AddressBook) (today : Date)
    (days : Int) (h : kv.2.birthday = none) :
    get_upcoming_birthdays (kv :: rest) today days =
      get_upcoming_birthdays rest today days := by
  conv_lhs => unfold get_upcoming_birthdays
  rw [h]

theorem gub_cons_some (kv : String × Record) (rest : AddressBook) (today : Date)
    (days : Int) (b : Date) (hb : kv.2.birthday = some b) :
    get_upcoming_birthdays (kv :: rest) today days =
      match project b today with
      | .error e => .error e
      | .ok p =>
        match get_upcoming_birthdays rest today days with
        | .error e => .error e
        | .ok l =>
          if 0 ≤ (p.toOrdinal : Int) - today.toOrdinal ∧
             (p.toOrdinal : Int) - today.toOrdinal ≤ days then
            .ok (adjust_for_weekend p.toOrdinal :: l)
          else .ok l := by
  conv_lhs => unfold get_upcoming_birthdays
  rw [hb]

/-! ## Claim theorems -/

/-- Claim C2: for every date `d` (given by its ordinal) and target weekday
index `w` in `0..6`, `find_next_weekday d w` returns a date strictly after
`d` whose weekday equals `w`, with a gap of between 1 and 7 days inclusive —
never the same day, even when `d`'s weekday is already `w`. -/
theorem find_next_weekday_spec (d w : Nat) (hw : w ≤ 6) :
    d < find_next_weekday d w ∧
    pyWeekday (find_next_weekday d w) = w ∧
    1 ≤ find_next_weekday d w - d ∧ find_next_weekday d w - d ≤ 7 := by
  unfold find_next_weekday pyWeekday
  dsimp only
  split <;> omega

/-- Witness for C2 at Saturday 2024-12-28 and target weekday Monday. -/
theorem find_next_weekday_spec_witness :
    Date.toOrdinal ⟨2024, 12, 28⟩ <
      find_next_weekday (Date.toOrdinal ⟨2024, 12, 28⟩) 0 ∧
    pyWeekday (find_next_weekday (Date.toOrdinal ⟨2024, 12, 28⟩) 0) = 0 ∧
    1 ≤ find_next_weekday (Date.toOrdinal ⟨2024, 12, 28⟩) 0 -
        Date.toOrdinal ⟨2024, 12, 28⟩ ∧
    find_next_weekday (Date.toOrdinal ⟨2024, 12, 28⟩) 0 -
        Date.toOrdinal ⟨2024, 12, 28⟩ ≤ 7 :=
  find_next_weekday_spec (Date.toOrdinal ⟨2024, 12, 28⟩) 0 (by decide)

/-- Claim C3: `Phone.__init__` succeeds exactly on strings of length 10 whose
characters are all decimal digits; on success the stored value is the input
string itself (so it renders back unchanged), and otherwise it raises
`ValueError("Phone number must be 10 digits long!")`. -/
theorem Phone_init_spec (p : String) :
    (Phone_init p = .ok p ↔ p.length = 10 ∧ ∀ c ∈ p.data, c.isDigit) ∧
    (¬(p.length = 10 ∧ ∀ c ∈ p.data, c.isDigit) →
      Phone_init p = .error "Phone number must be 10 digits long!") := by
  by_cases h10 : p.length = 10
  · by_cases hall : ∀ c ∈ p.data, c.isDigit
    · have hok : Phone_init p = .ok p := by
        unfold Phone_init pyIsdigit
        simp [h10, List.all_eq_true.mpr hall]
      exact ⟨iff_of_true hok ⟨h10, hall⟩, fun hc => absurd ⟨h10, hall⟩ hc⟩
    · have herr : Phone_init p = .error "Phone number must be 10 digits long!" := by
        unfold Phone_init pyIsdigit
        have hfalse : p.data.all Char.isDigit = false := by
          push_neg at hall
          rcases hall with ⟨c, hmem, hnd⟩
          simp only [List.all_eq_false]
          exact ⟨c, hmem, by simpa using hnd⟩
        simp [hfalse]
      refine ⟨iff_of_false (by simp [herr]) (fun hc => hall hc.2), fun _ => herr⟩
  · have herr : Phone_init p = .error "Phone number must be 10 digits long!" := by
      unfold Phone_init
      simp [h10]
    exact ⟨iff_of_false (by simp [herr]) (fun hc => h10 hc.1), fun _ => herr⟩

/-- Claim C5: when `old_phone` is among the record's phones, `edit_phone`
first removes exactly one matching entry and then appends a freshly validated
`new_phone`; if `new_phone` fails `Phone` validation, the call raises that
validation error with the old phone already removed from the resulting
state. -/
theorem edit_phone_found_spec (r : Record) (old_phone new_phone : String)
    (h : old_phone ∈ r.phones) :
    (∀ e, Phone_init new_phone = .error e →
      Record.edit_phone r old_phone new_phone =
        ({ r with phones := r.phones.erase old_phone }, some e)) ∧
    (∀ p, Phone_init new_phone = .ok p →
      Record.edit_phone r old_phone new_phone =
        ({ r with phones := r.phones.erase old_phone ++ [p] }, none)) ∧
    (r.phones.erase old_phone).count old_phone + 1 = r.phones.count old_phone := by
  have hfind : r.phones.find? (· == old_phone) = some old_phone :=
    find_first_self h
  have hrem : r.remove_phone old_phone = { r with phones := r.phones.erase old_phone } := by
    unfold Record.remove_phone Record.find_phone
    rw [hfind]
  have hcount : (r.phones.erase old_phone).count old_phone + 1 =
      r.phones.count old_phone := by
    rw [List.count_erase_self]
    have : 0 < r.phones.count old_phone := List.count_pos_iff.mpr h
    omega
  refine ⟨fun e he => ?_, fun p hp => ?_, hcount⟩
  · unfold Record.edit_phone Record.find_phone
    rw [hfind, hrem]
    unfold Record.add_phone
    rw [he]
  · unfold Record.edit_phone Record.find_phone
    rw [hfind, hrem]
    unfold Record.add_phone
    rw [hp]

/-- Witness for C5's hypotheses: a record holding `"1111111111"` whose edit to
the invalid `"22"` leaves the old phone removed and returns the phone
validation error. -/
theorem edit_phone_found_spec_witness :
    Record.edit_phone ⟨"A", ["1111111111"], none⟩ "1111111111" "22" =
      (⟨"A", [], none⟩, some "Phone number must be 10 digits long!") ∧
    (["1111111111"].erase "1111111111").count "1111111111" + 1 =
      ["1111111111"].count "1111111111" := by
  have h := edit_phone_found_spec ⟨"A", ["1111111111"], none⟩ "1111111111" "22"
    (by decide)
  exact ⟨(h.1 "Phone number must be 10 digits long!" rfl).trans (by rfl), h.2.2⟩

/-- Claim C6: when `old_phone` is not among the record's phones, `edit_phone`
raises `ValueError("Phone number is incorrect")` and leaves the record
unchanged, whatever `new_phone` is. -/
theorem edit_phone_missing_spec (r : Record) (old_phone new_phone : String)
    (h : old_phone ∉ r.phones) :
    Record.edit_phone r old_phone new_phone =
      (r, some "Phone number is incorrect") := by
  unfold Record.edit_phone Record.find_phone
  rw [find_first_none h]

/-- Witness for C6 at a record without the requested phone. -/
theorem edit_phone_missing_spec_witness :
    Record.edit_phone ⟨"A", ["1111111111"], none⟩ "9999999999" "2222222222" =
      (⟨"A", ["1111111111"], none⟩, some "Phone number is incorrect") :=
  edit_phone_missing_spec ⟨"A", ["1111111111"], none⟩ "9999999999" "2222222222"
    (by decide)

/-- Claim C4: `Birthday.__init__` succeeds exactly on strings of length 10
of the shape `DD.MM.YYYY` (all components decimal digits) denoting a real
calendar date; the stored date's day, month and year equal the parsed
components, and any other string fails with
`ValueError("Invalid date format. Use DD.MM.YYYY")`. -/
theorem Birthday_init_spec (s : String) (d : Date) :
    (Birthday_init s = .ok d ↔
      ∃ c1 c2 c3 c4 c5 c6 c7 c8 : Char,
        s.data = [c1, c2, '.', c3, c4, '.', c5, c6, c7, c8] ∧
        (c1.isDigit ∧ c2.isDigit ∧ c3.isDigit ∧ c4.isDigit ∧
         c5.isDigit ∧ c6.isDigit ∧ c7.isDigit ∧ c8.isDigit) ∧
        d = ⟨1000 * digitVal c5 + 100 * digitVal c6 + 10 * digitVal c7 +
              digitVal c8,
             10 * digitVal c3 + digitVal c4,
             10 * digitVal c1 + digitVal c2⟩ ∧
        d.isValid = true) ∧
    ((¬ ∃ d', Birthday_init s = .ok d') →
      Birthday_init s = .error "Invalid date format. Use DD.MM.YYYY") := by
  constructor
  · constructor
    · intro h
      unfold Birthday_init at h
      by_cases hlen : (s.length != 10) = true
      · rw [if_pos hlen] at h
        cases h
      · rw [if_neg hlen] at h
        cases hsp : strptime_dmY s with
        | none => rw [hsp] at h; cases h
        | some d' =>
          rw [hsp] at h
          injection h with h'
          subst h'
          unfold strptime_dmY at hsp
          split at hsp
          · rename_i c1 c2 p1 c3 c4 p2 c5 c6 c7 c8 heq
            split at hsp
            · rename_i hcond
              dsimp only at hsp
              split at hsp
              · rename_i hval
                injection hsp with hsp'
                simp only [Bool.and_eq_true, beq_iff_eq] at hcond
                obtain ⟨⟨⟨⟨⟨⟨⟨⟨⟨hp1, hp2⟩, h1⟩, h2⟩, h3⟩, h4⟩, h5⟩, h6⟩, h7⟩,
                  h8⟩ := hcond
                subst hp1
                subst hp2
                exact ⟨c1, c2, c3, c4, c5, c6, c7, c8, heq,
                  ⟨h1, h2, h3, h4, h5, h6, h7, h8⟩, hsp'.symm, hsp' ▸ hval⟩
              · cases hsp
            · cases hsp
          · cases hsp
    · rintro ⟨c1, c2, c3, c4, c5, c6, c7, c8, hdata,
        ⟨h1, h2, h3, h4, h5, h6, h7, h8⟩, hdd, hval⟩
      have hlen : s.length = 10 := by
        have : s.length = s.data.length := rfl
        rw [this, hdata]
        rfl
      have hsp : strptime_dmY s = some d := by
        unfold strptime_dmY
        rw [hdata]
        dsimp only
        rw [if_pos (by simp [h1, h2, h3, h4, h5, h6, h7, h8]), ← hdd,
          if_pos hval]
      unfold Birthday_init
      rw [if_neg (by simp [hlen]), hsp]
  · intro hno
    unfold Birthday_init
    by_cases hlen : (s.length != 10) = true
    · rw [if_pos hlen]
    · rw [if_neg hlen]
      cases hsp : strptime_dmY s with
      | some d' =>
        exact absurd ⟨d', by unfold Birthday_init; rw [if_neg hlen, hsp]⟩ hno
      | none => rfl

/-- Witness for C4 at a valid leap-day string and an impossible date. -/
theorem Birthday_init_spec_witness :
    Birthday_init "29.02.2020" = .ok ⟨2020, 2, 29⟩ ∧
    Birthday_init "31.02.2020" = .error "Invalid date format. Use DD.MM.YYYY" :=
  ⟨(Birthday_init_spec "29.02.2020" ⟨2020, 2, 29⟩).1.mpr
    ⟨'2', '9', '0', '2', '2', '0', '2', '0', rfl, by decide, by decide,
      by decide⟩,
   (Birthday_init_spec "31.02.2020" ⟨2020, 2, 31⟩).2 (by
    rintro ⟨d', hd'⟩
    have hcontra : (Except.error "Invalid date format. Use DD.MM.YYYY" :
        Except String Date) = .ok d' := hd'
    cases hcontra)⟩

/-- Witness for C3 at a valid and an invalid phone string. -/
theorem Phone_init_spec_witness :
    Phone_init "1234567890" = .ok "1234567890" ∧
    Phone_init "12345" = .error "Phone number must be 10 digits long!" :=
  ⟨(Phone_init_spec "1234567890").1.mpr (by decide),
   (Phone_init_spec "12345").2 (by decide)⟩

/-- Counterexample to C7 as stated: `add_contact` called with too few tokens
does not return the fixed message `"Give me phone and name please"` (tuple
unpacking raises `ValueError`, not `IndexError`, so `input_error` returns the
unpacking message instead). -/
theorem add_contact_missing_args_counterexample :
    (add_contact [] []).1 ≠ "Give me phone and name please" := by decide

/-- Claim C7 (amended): with too few tokens, `name, phone, *_ = args` in
`add_contact` raises `ValueError("not enough values to unpack (expected at
least 2, got N)")`; `input_error` catches it as a `ValueError` and returns
that text verbatim, leaving the book unchanged, and no error propagates out.
The fixed message `"Give me phone and name please"` is `input_error`'s
mapping for `IndexError`, which `add_contact` never raises. -/
theorem add_contact_missing_args_spec (args : List String) (book : AddressBook)
    (h : args.length < 2) :
    add_contact args book =
      ("not enough values to unpack (expected at least 2, got " ++
        toString args.length ++ ")", book) ∧
    input_error (.error .indexError) = "Give me phone and name please" := by
  refine ⟨?_, rfl⟩
  rcases args with _ | ⟨a, _ | ⟨b, t⟩⟩
  · rfl
  · rfl
  · simp only [List.length_cons] at h
    omega

/-- Witness for C7's amended claim at a one-token argument list. -/
theorem add_contact_missing_args_spec_witness :
    add_contact ["OnlyName"] [] =
      ("not enough values to unpack (expected at least 2, got 1)", []) ∧
    input_error (.error .indexError) = "Give me phone and name please" :=
  add_contact_missing_args_spec ["OnlyName"] [] (by decide)

/-- Claim C8: in every state reachable from the empty book through the public
operations, every stored record's name equals its own key, and `add_record`
keys an entry by the record's own name with last-write-wins lookup. -/
theorem addressbook_keyed_invariant (book : AddressBook) (h : Reachable book) :
    keyedByName book ∧
    ∀ record : Record,
      (book.add_record record).find record.name = some record := by
  refine ⟨?_, fun record => find_add_record book record⟩
  induction h with
  | empty => intro kv hkv; cases hkv
  | add record _ ih =>
    intro kv hkv
    unfold AddressBook.add_record at hkv
    split at hkv
    · rcases List.mem_map.mp hkv with ⟨kv', hkv', heq⟩
      by_cases hk : kv'.1 = record.name
      · have hbeq : (kv'.1 == record.name) = true := beq_iff_eq.mpr hk
        rw [if_pos hbeq] at heq
        rw [← heq]
        exact hk.symm
      · have hbeq : (kv'.1 == record.name) = false := beq_eq_false_iff_ne.mpr hk
        rw [if_neg (by simp [hbeq])] at heq
        rw [← heq]
        exact ih kv' hkv'
    · rcases List.mem_append.mp hkv with hin | hin
      · exact ih kv hin
      · rcases List.mem_singleton.mp hin with rfl
        rfl
  | del name _ ih =>
    intro kv hkv
    exact ih kv ((List.eraseP_sublist _).subset hkv)

/-- Witness for C8 at a one-record book reached by a single `add_record`. -/
theorem addressbook_keyed_invariant_witness :
    keyedByName (AddressBook.add_record [] ⟨"Alice", ["1234567890"], none⟩) ∧
    ∀ record : Record,
      ((AddressBook.add_record [] ⟨"Alice", ["1234567890"], none⟩).add_record
        record).find record.name = some record :=
  addressbook_keyed_invariant _
    (Reachable.add ⟨"Alice", ["1234567890"], none⟩ Reachable.empty)

/-- Claim C1: when `get_upcoming_birthdays` returns a list, its members are
exactly the values arising from records with a birthday whose projection `p`
onto the current year (rolled to next year if already past, by `project`)
satisfies the inclusion test `0 ≤ (p − today).days ≤ days` on the
UNADJUSTED projected date, and the value collected is the weekend-ADJUSTED
date `adjust_for_weekend p`; the adjustment plays no part in the inclusion
condition. -/
theorem get_upcoming_birthdays_mem_spec (book : AddressBook) (today : Date)
    (days : Int) (l : List Nat)
    (h : get_upcoming_birthdays book today days = .ok l) (x : Nat) :
    x ∈ l ↔ ∃ kv ∈ book, ∃ b p, kv.2.birthday = some b ∧
      project b today = .ok p ∧
      0 ≤ (p.toOrdinal : Int) - today.toOrdinal ∧
      (p.toOrdinal : Int) - today.toOrdinal ≤ days ∧
      x = adjust_for_weekend p.toOrdinal := by
  induction book generalizing l with
  | nil =>
    unfold get_upcoming_birthdays at h
    injection h with h'
    subst h'
    simp
  | cons kv rest ih =>
    cases hb : kv.2.birthday with
    | none =>
      rw [gub_cons_none kv rest today days hb] at h
      rw [ih l h]
      constructor
      · rintro ⟨kv', hmem, hrest⟩
        exact ⟨kv', List.mem_cons_of_mem _ hmem, hrest⟩
      · rintro ⟨kv', hmem, hrest⟩
        rcases List.mem_cons.mp hmem with heq | hmem'
        · subst heq
          rcases hrest with ⟨b, p, hb', _⟩
          rw [hb] at hb'
          cases hb'
        · exact ⟨kv', hmem', hrest⟩
    | some b =>
      rw [gub_cons_some kv rest today days b hb] at h
      cases hp : project b today with
      | error e => rw [hp] at h; cases h
      | ok p =>
        rw [hp] at h
        cases hrest : get_upcoming_birthdays rest today days with
        | error e => rw [hrest] at h; cases h
        | ok l' =>
          rw [hrest] at h
          dsimp only at h
          by_cases hcond : 0 ≤ (p.toOrdinal : Int) - today.toOrdinal ∧
              (p.toOrdinal : Int) - today.toOrdinal ≤ days
          · rw [if_pos hcond] at h
            injection h with h'
            subst h'
            rw [List.mem_cons, ih l' hrest]
            constructor
            · rintro (rfl | ⟨kv', hmem', hrest'⟩)
              · exact ⟨kv, List.mem_cons_self kv rest, b, p, hb, hp,
                  hcond.1, hcond.2, rfl⟩
              · exact ⟨kv', List.mem_cons_of_mem _ hmem', hrest'⟩
            · rintro ⟨kv', hmem', hx⟩
              rcases List.mem_cons.mp hmem' with heq | hmem''
              · subst heq
                rcases hx with ⟨b', p', hb', hp', _, _, hxx⟩
                rw [hb] at hb'
                injection hb' with hb''
                subst hb''
                rw [hp] at hp'
                injection hp' with hp''
                subst hp''
                exact Or.inl hxx
              · exact Or.inr ⟨kv', hmem'', hx⟩
          · rw [if_neg hcond] at h
            injection h with h'
            subst h'
            rw [ih l' hrest]
            constructor
            · rintro ⟨kv', hmem', hrest'⟩
              exact ⟨kv', List.mem_cons_of_mem _ hmem', hrest'⟩
            · rintro ⟨kv', hmem', hx⟩
              rcases List.mem_cons.mp hmem' with heq | hmem''
              · subst heq
                rcases hx with ⟨b', p', hb', hp', hge, hle, hxx⟩
                rw [hb] at hb'
                injection hb' with hb''
                subst hb''
                rw [hp] at hp'
                injection hp' with hp''
                subst hp''
                exact absurd ⟨hge, hle⟩ hcond
              · exact ⟨kv', hmem'', hx⟩

/-- Witness for C1: one record with birthday `01.01.2000`, today
`2024-12-28`, window 7 days — the projected date `2025-01-01` (a Wednesday,
unadjusted) is collected. -/
theorem get_upcoming_birthdays_mem_spec_witness :
    739252 ∈ [739252] :=
  (get_upcoming_birthdays_mem_spec
    [("Alice", ⟨"Alice", [], some ⟨2000, 1, 1⟩⟩)] ⟨2024, 12, 28⟩ 7 [739252]
    rfl 739252).mpr
    ⟨("Alice", ⟨"Alice", [], some ⟨2000, 1, 1⟩⟩), by simp,
     ⟨2000, 1, 1⟩, ⟨2025, 1, 1⟩, rfl, rfl, by decide, by decide, by decide⟩

/-- Claim C9: if the book contains a record whose birthday is February 29 and
the current year is not a leap year, `get_upcoming_birthdays` raises the
date-construction error from the unguarded `replace(year=today.year)` instead
of returning a result list. -/
theorem get_upcoming_birthdays_feb29_raises (book : AddressBook) (today : Date)
    (days : Int) (kv : String × Record) (hmem : kv ∈ book) (b : Date)
    (hb : kv.2.birthday = some b) (hm : b.month = 2) (hd : b.day = 29)
    (hleap : isLeap today.year = false) :
    ∃ e, get_upcoming_birthdays book today days = .error e := by
  obtain ⟨e0, hrep⟩ : ∃ e, date_replace_year b today.year = .error e := by
    unfold date_replace_year
    by_cases hy : (today.year < 1 || 9999 < today.year) = true
    · rw [if_pos hy]
      exact ⟨_, rfl⟩
    · rw [if_neg hy]
      have h28 : daysInMonth today.year 2 = 28 := by
        unfold daysInMonth
        simp [hleap]
      have hval : (Date.mk today.year b.month b.day).isValid = false := by
        unfold Date.isValid
        rw [hm, hd]
        simp only [h28, decide_eq_false_iff_not]
        intro hc
        omega
      refine ⟨"day is out of range for month", ?_⟩
      simp [hval]
  have hproj : project b today = .error e0 := by
    unfold project
    rw [hrep]
  induction book with
  | nil => cases hmem
  | cons kv' rest ih =>
    rcases List.mem_cons.mp hmem with heq | hmem'
    · subst heq
      refine ⟨e0, ?_⟩
      rw [gub_cons_some kv rest today days b hb, hproj]
    · obtain ⟨e1, hrest⟩ := ih hmem'
      cases hb' : kv'.2.birthday with
      | none =>
        rw [gub_cons_none kv' rest today days hb']
        exact ⟨e1, hrest⟩
      | some b' =>
        rw [gub_cons_some kv' rest today days b' hb']
        cases hp' : project b' today with
        | error e2 => exact ⟨e2, rfl⟩
        | ok p =>
          rw [hrest]
          exact ⟨e1, rfl⟩

/-- Witness for C9: a book with a Feb-29 birthday queried in 2025. -/
theorem get_upcoming_birthdays_feb29_raises_witness :
    ∃ e, get_upcoming_birthdays [("Bob", ⟨"Bob", [], some ⟨2000, 2, 29⟩⟩)]
      ⟨2025, 3, 1⟩ 7 = .error e :=
  get_upcoming_birthdays_feb29_raises _ _ 7
    ("Bob", ⟨"Bob", [], some ⟨2000, 2, 29⟩⟩) (by simp) ⟨2000, 2, 29⟩ rfl rfl rfl
    (by decide)

/-- Claim C10: when the `add` handler is called with an unknown name and an
invalid phone, it returns the phone validation error message, yet the freshly
created phoneless record has already been inserted into the book — the state
changes despite the error result. -/
theorem add_contact_invalid_phone_state (name phone : String)
    (book : AddressBook) (hfind : book.find name = none) (e : String)
    (hphone : Phone_init phone = .error e) (hne : phone ≠ "") :
    (add_contact [name, phone] book).1 = e ∧
    (add_contact [name, phone] book).2.find name = some ⟨name, [], none⟩ := by
  have hbody : add_contact_body [name, phone] book =
      (.error (.valueError e), book.add_record ⟨name, [], none⟩) := by
    dsimp only [add_contact_body]
    rw [hfind]
    dsimp only
    rw [if_pos hne, hphone]
  unfold add_contact
  rw [hbody]
  exact ⟨rfl, find_add_record book ⟨name, [], none⟩⟩

/-- Witness for C10: adding `"Jane"` with the invalid phone `"12345"` to the
empty book. -/
theorem add_contact_invalid_phone_state_witness :
    (add_contact ["Jane", "12345"] []).1 =
      "Phone number must be 10 digits long!" ∧
    (add_contact ["Jane", "12345"] []).2.find "Jane" =
      some ⟨"Jane", [], none⟩ :=
  add_contact_invalid_phone_state "Jane" "12345" [] rfl
    "Phone number must be 10 digits long!" rfl (by decide)
